import Mathlib

/-!
Verification of the spectral peak-fitting pipeline and glue functions of the
c3d-book course repository.

The Python sources are shallowly embedded:
* the Gaussian/Lorentzian peak-shape functions become real-valued functions;
* the per-peak `curve_fit` loop becomes a fold over an abstract fallible
  optimizer (`scipy.optimize.curve_fit` itself is an external black box,
  modelled only through its interface: it either returns a parameter
  vector/covariance pair or raises);
* the manual R² computation becomes list sums over the reals;
* `getMolDescriptors` becomes a map over an abstract descriptor table whose
  entries are fallible functions (Python `try`/`except` becomes `Except`);
* `get_smiles_from_name` is embedded in a state monad counting HTTP requests.
-/

namespace C3dBook

/-! ### Peak-shape model (spectrum_analysis.ipynb)

Python source:
```
def gaussian(x_array, ampl, centre, width):
    sigma = width/np.sqrt(8*np.log(2))
    return ampl*(1/(sigma*np.sqrt(2*np.pi)))*np.exp(-(x_array-centre)**2/(2*sigma**2))

def lorentzian(x_array, ampl, centre, width):
    h_width = width/2
    return ampl/np.pi * h_width/((x_array-centre)**2 + h_width**2)
```
Both are vectorized over `x_array`; we embed the scalar kernel applied at one
position, real arithmetic standing for float arithmetic. -/

noncomputable def gaussian (x_array ampl centre width : ℝ) : ℝ :=
  let sigma := width / Real.sqrt (8 * Real.log 2)
  ampl * (1 / (sigma * Real.sqrt (2 * Real.pi))) *
    Real.exp (-(x_array - centre) ^ 2 / (2 * sigma ^ 2))

noncomputable def lorentzian (x_array ampl centre width : ℝ) : ℝ :=
  let h_width := width / 2
  ampl / Real.pi * h_width / ((x_array - centre) ^ 2 + h_width ^ 2)

/-- The conversion from full width at half maximum to the Gaussian standard
deviation used by the spec: σ = W/√(8·ln 2). -/
noncomputable def sigmaOf (width : ℝ) : ℝ := width / Real.sqrt (8 * Real.log 2)

/-- The Lorentzian value depends on the position only through the squared
distance to the centre, and decreases as that distance grows (for positive
amplitude and width). -/
theorem lorentzian_anti (A x0 W a b : ℝ) (hA : 0 < A) (hW : 0 < W)
    (hab : |a - x0| ≤ |b - x0|) : lorentzian b A x0 W ≤ lorentzian a A x0 W := by
  unfold lorentzian
  have hh : (0 : ℝ) < W / 2 := by linarith
  have hnum : (0 : ℝ) ≤ A / Real.pi * (W / 2) :=
    le_of_lt (mul_pos (div_pos hA Real.pi_pos) hh)
  have hsq : (a - x0) ^ 2 ≤ (b - x0) ^ 2 := by
    rw [← sq_abs (a - x0), ← sq_abs (b - x0)]
    exact pow_le_pow_left₀ (abs_nonneg _) hab 2
  have hda : (0 : ℝ) < (a - x0) ^ 2 + (W / 2) ^ 2 :=
    add_pos_of_nonneg_of_pos (sq_nonneg _) (pow_pos hh 2)
  exact div_le_div_of_nonneg_left hnum hda (by linarith)

/-- C1: for amplitude A > 0, centre x0 and width W > 0, the Lorentzian
evaluated at its centre equals (2A)/(πW), and over any sampled x-array the
maximum value is attained at the sample nearest x0. -/
theorem lorentzian_centre_peak (A x0 W : ℝ) (hA : 0 < A) (hW : 0 < W) :
    lorentzian x0 A x0 W = 2 * A / (Real.pi * W) ∧
    ∀ (xs : List ℝ) (j i : Fin xs.length),
      (∀ k : Fin xs.length, |xs.get j - x0| ≤ |xs.get k - x0|) →
      lorentzian (xs.get i) A x0 W ≤ lorentzian (xs.get j) A x0 W := by
  constructor
  · unfold lorentzian
    rw [sub_self]
    have hW' : W ≠ 0 := ne_of_gt hW
    have hpi : Real.pi ≠ 0 := Real.pi_ne_zero
    field_simp
    ring
  · intro xs j i hnear
    exact lorentzian_anti A x0 W (xs.get j) (xs.get i) hA hW (hnear i)

/-- Witness for C1 at A = 1, x0 = 0, W = 2 over the sampled array [0, 1]:
the sample at index 0 is nearest the centre and carries the maximum. -/
theorem lorentzian_centre_peak_witness :
    lorentzian 1 1 0 2 ≤ lorentzian 0 1 0 2 :=
  (lorentzian_centre_peak 1 0 2 one_pos two_pos).2 [0, 1]
    ⟨0, by norm_num⟩ ⟨1, by norm_num⟩
    (by intro k; fin_cases k <;> norm_num)

/-- C2: for amplitude A > 0, centre x0 and width W > 0, the Gaussian
evaluated at its centre equals A/(σ√(2π)) with σ = W/√(8·ln 2), i.e. the
implementation's `sigma = width/np.sqrt(8*np.log(2))` matches the spec's σ
and the stated peak value follows from the formula. -/
theorem gaussian_centre_peak (A x0 W : ℝ) (hA : 0 < A) (hW : 0 < W) :
    gaussian x0 A x0 W = A / (sigmaOf W * Real.sqrt (2 * Real.pi)) := by
  unfold gaussian sigmaOf
  rw [sub_self]
  simp only [zero_pow, neg_zero, zero_div, Real.exp_zero, mul_one, mul_one_div,
    OfNat.ofNat_ne_zero, ne_eq, not_false_eq_true]

/-- Witness for C2 at A = 1, x0 = 0, W = 1. -/
theorem gaussian_centre_peak_witness :
    gaussian 0 1 0 1 = 1 / (sigmaOf 1 * Real.sqrt (2 * Real.pi)) :=
  gaussian_centre_peak 1 0 1 one_pos one_pos

/-! ### Fit-quality reporter: R² (spectrum_analysis.ipynb)

Python source (the notebook's manual computation):
```
residuals = lor_spec_y - nmr_spec["intensity"]
squared_residuals = residuals ** 2
SSR = squared_residuals.sum()
SST = ((nmr_spec["intensity"] - nmr_spec["intensity"].mean())**2).sum()
r2 = 1-(SSR/SST)
```
Sequences become lists of reals; the elementwise array difference becomes
`zipWith`. -/

noncomputable def mean (ys : List ℝ) : ℝ := ys.sum / ys.length

noncomputable def ssr (y_calc y_obs : List ℝ) : ℝ :=
  (List.zipWith (fun yc yo => (yc - yo) ^ 2) y_calc y_obs).sum

noncomputable def sst (y_obs : List ℝ) : ℝ :=
  (y_obs.map (fun y => (y - mean y_obs) ^ 2)).sum

noncomputable def r2 (y_obs y_calc : List ℝ) : ℝ :=
  1 - ssr y_calc y_obs / sst y_obs

theorem ssr_self (ys : List ℝ) : ssr ys ys = 0 := by
  unfold ssr
  induction ys with
  | nil => simp
  | cons y t ih =>
    simp only [List.zipWith_cons_cons, List.sum_cons, sub_self, ne_eq,
      OfNat.ofNat_ne_zero, not_false_eq_true, zero_pow, zero_add]
    exact ih

theorem ssr_const (ys : List ℝ) (c : ℝ) :
    ssr (ys.map fun _ => c) ys = (ys.map fun y => (y - c) ^ 2).sum := by
  unfold ssr
  induction ys with
  | nil => simp
  | cons y t ih =>
    simp only [List.map_cons, List.zipWith_cons_cons, List.sum_cons, ih]
    ring_nf

/-- C3: R² = 1 − SSR/SST satisfies: a perfect fit (calculated ≡ observed)
scores exactly 1, and the constant-mean baseline model scores exactly 0,
provided the observed data is not constant (SST > 0). -/
theorem r2_perfect_and_mean (ys : List ℝ) (hsst : 0 < sst ys) :
    r2 ys ys = 1 ∧ r2 ys (ys.map fun _ => mean ys) = 0 := by
  constructor
  · unfold r2
    rw [ssr_self, zero_div, sub_zero]
  · unfold r2
    rw [ssr_const]
    have : (ys.map fun y => (y - mean ys) ^ 2).sum = sst ys := rfl
    rw [this, div_self (ne_of_gt hsst), sub_self]

/-- Witness for C3 on the observed data [0, 1] (not constant: SST = 1/2). -/
theorem r2_perfect_and_mean_witness :
    r2 [0, 1] [0, 1] = 1 ∧
    r2 [0, 1] (([0, 1] : List ℝ).map fun _ => mean [0, 1]) = 0 :=
  r2_perfect_and_mean [0, 1] (by norm_num [sst, mean])

/-! ### Per-peak curve-fitting loop (run_curve_fits snippet)

Python source:
```
popt_list = []
pcov_list = []
for pk in range(len(peak_idx)):
    popt, pcov = curve_fit(lorentzian,
                           xdata=nmr_spec["ppm"],
                           ydata=nmr_spec["intensity"],
                           p0=[peak_info["peak_heights"][pk]*peak_info["widths"][pk],
                               peak_info["centres"][pk],
                               peak_info["widths"][pk] ])
    popt_list.append(popt)
    pcov_list.append(pcov)
```
`scipy.optimize.curve_fit` is an external black box that either returns a
`(popt, pcov)` pair or raises `RuntimeError` on non-convergence; we model it
as an abstract function into `Except`.  The loop body has no `try`/`except`,
so a raised error propagates out of the whole loop: `fitLoop` folds the
iterations through the `Except` bind exactly as Python exception flow does,
appending one result pair per iteration on success. -/

inductive FitError where
  | noConvergence
deriving DecidableEq

def fitLoop {α β : Type} (fit : ℕ → Except FitError (α × β)) :
    ℕ → Except FitError (List α × List β)
  | 0 => Except.ok ([], [])
  | n + 1 =>
    match fitLoop fit n with
    | Except.error e => Except.error e
    | Except.ok (popt_list, pcov_list) =>
      match fit n with
      | Except.error e => Except.error e
      | Except.ok (popt, pcov) =>
        Except.ok (popt_list ++ [popt], pcov_list ++ [pcov])

/-- The `peak_info` dictionary after tidying: parallel lists keyed
`peak_heights`, `widths`, `centres`. -/
structure PeakInfo where
  peak_heights : List ℝ
  widths : List ℝ
  centres : List ℝ

/-- The argument bundle one loop iteration passes to `curve_fit`. -/
structure FitArgs where
  model : ℝ → ℝ → ℝ → ℝ → ℝ
  xdata : List ℝ
  ydata : List ℝ
  p0 : List ℝ

/-- The `curve_fit` call of iteration `pk`, with `p0` built exactly as in the
source: `[peak_heights[pk]*widths[pk], centres[pk], widths[pk]]`. -/
noncomputable def curveFitArgs (nmr_ppm nmr_intensity : List ℝ)
    (peak_info : PeakInfo) (pk : ℕ) : FitArgs :=
  { model := lorentzian
    xdata := nmr_ppm
    ydata := nmr_intensity
    p0 := [peak_info.peak_heights.getD pk 0 * peak_info.widths.getD pk 0,
           peak_info.centres.getD pk 0,
           peak_info.widths.getD pk 0] }

/-- The whole snippet: iterate `curve_fit` over the located peaks. -/
noncomputable def runCurveFits {α β : Type}
    (curve_fit : FitArgs → Except FitError (α × β))
    (nmr_ppm nmr_intensity : List ℝ) (peak_info : PeakInfo) (numPeaks : ℕ) :
    Except FitError (List α × List β) :=
  fitLoop (fun pk => curve_fit (curveFitArgs nmr_ppm nmr_intensity peak_info pk))
    numPeaks

theorem fitLoop_ok_lengths {α β : Type} (fit : ℕ → Except FitError (α × β)) :
    ∀ (n : ℕ) (ps : List α) (cs : List β),
      fitLoop fit n = Except.ok (ps, cs) → ps.length = n ∧ cs.length = n := by
  intro n
  induction n with
  | zero =>
    intro ps cs h
    simp only [fitLoop] at h
    cases h
    exact ⟨rfl, rfl⟩
  | succ m ih =>
    intro ps cs h
    simp only [fitLoop] at h
    cases hm : fitLoop fit m with
    | error e => rw [hm] at h; cases h
    | ok pair =>
      obtain ⟨ps', cs'⟩ := pair
      rw [hm] at h
      cases hf : fit m with
      | error e => rw [hf] at h; cases h
      | ok pc =>
        obtain ⟨p, c⟩ := pc
        rw [hf] at h
        cases h
        obtain ⟨h1, h2⟩ := ih ps' cs' hm
        constructor
        · simp [h1]
        · simp [h2]

theorem fitLoop_ok_get {α β : Type} (fit : ℕ → Except FitError (α × β)) :
    ∀ (n : ℕ) (ps : List α) (cs : List β),
      fitLoop fit n = Except.ok (ps, cs) →
      ∀ k, k < n → ∃ p c, fit k = Except.ok (p, c) ∧
        ps.get? k = some p ∧ cs.get? k = some c := by
  intro n
  induction n with
  | zero => intro ps cs _ k hk; omega
  | succ m ih =>
    intro ps cs h k hk
    simp only [fitLoop] at h
    cases hm : fitLoop fit m with
    | error e => rw [hm] at h; cases h
    | ok pair =>
      obtain ⟨ps', cs'⟩ := pair
      rw [hm] at h
      cases hf : fit m with
      | error e => rw [hf] at h; cases h
      | ok pc =>
        obtain ⟨p, c⟩ := pc
        rw [hf] at h
        cases h
        obtain ⟨hl1, hl2⟩ := fitLoop_ok_lengths fit m ps' cs' hm
        rcases Nat.lt_succ_iff_lt_or_eq.mp hk with hlt | heq
        · obtain ⟨p', c', hfit, hp, hc⟩ := ih ps' cs' hm k hlt
          refine ⟨p', c', hfit, ?_, ?_⟩
          · rw [List.get?_append (by omega)]; exact hp
          · rw [List.get?_append (by omega)]; exact hc
        · subst heq
          refine ⟨p, c, hf, ?_, ?_⟩
          · rw [← hl1, List.get?_concat_length]
          · rw [← hl2, List.get?_concat_length]

theorem fitLoop_ok_of_forall {α β : Type}
    (fit : ℕ → Except FitError (α × β)) :
    ∀ n : ℕ, (∀ j, j < n → ∃ r, fit j = Except.ok r) →
      ∃ ps cs, fitLoop fit n = Except.ok (ps, cs) := by
  intro n
  induction n with
  | zero => exact fun _ => ⟨[], [], rfl⟩
  | succ m ih =>
    intro hpre
    obtain ⟨ps, cs, hm⟩ := ih (fun i hi => hpre i (Nat.lt_succ_of_lt hi))
    obtain ⟨⟨p, c⟩, hpc⟩ := hpre m (Nat.lt_succ_self m)
    refine ⟨ps ++ [p], cs ++ [c], ?_⟩
    simp only [fitLoop, hm, hpc]

theorem fitLoop_error_propagates {α β : Type}
    (fit : ℕ → Except FitError (α × β)) :
    ∀ (n k : ℕ) (e : FitError), k < n →
      (∀ j, j < k → ∃ r, fit j = Except.ok r) →
      fit k = Except.error e → fitLoop fit n = Except.error e := by
  intro n
  induction n with
  | zero => intro k e hk; omega
  | succ m ih =>
    intro k e hk hpre hke
    simp only [fitLoop]
    rcases Nat.lt_succ_iff_lt_or_eq.mp hk with hlt | heq
    · rw [ih k e hlt hpre hke]
    · subst heq
      obtain ⟨ps, cs, hok⟩ := fitLoop_ok_of_forall fit k hpre
      rw [hok, hke]

/-- C7: when the per-peak loop completes (no optimizer failure), it produces
exactly one `(popt, pcov)` result per peak candidate, in candidate order:
both result lists have length `numPeaks`, and the k-th entries are exactly
what `curve_fit` returned for candidate k. -/
theorem runCurveFits_one_result_per_peak {α β : Type}
    (curve_fit : FitArgs → Except FitError (α × β))
    (nmr_ppm nmr_intensity : List ℝ) (peak_info : PeakInfo) (numPeaks : ℕ)
    (popt_list : List α) (pcov_list : List β)
    (h : runCurveFits curve_fit nmr_ppm nmr_intensity peak_info numPeaks =
      Except.ok (popt_list, pcov_list)) :
    popt_list.length = numPeaks ∧ pcov_list.length = numPeaks ∧
    ∀ k, k < numPeaks → ∃ p c,
      curve_fit (curveFitArgs nmr_ppm nmr_intensity peak_info k) =
        Except.ok (p, c) ∧
      popt_list.get? k = some p ∧ pcov_list.get? k = some c := by
  unfold runCurveFits at h
  obtain ⟨h1, h2⟩ := fitLoop_ok_lengths _ numPeaks popt_list pcov_list h
  exact ⟨h1, h2, fitLoop_ok_get _ numPeaks popt_list pcov_list h⟩

/-- Witness for C7: two always-converging fits produce two results. -/
theorem runCurveFits_one_result_per_peak_witness :
    ([1, 1] : List ℕ).length = 2 ∧ ([2, 2] : List ℕ).length = 2 := by
  have h := runCurveFits_one_result_per_peak
    (fun _ => Except.ok ((1 : ℕ), (2 : ℕ))) [] [] ⟨[], [], []⟩ 2 [1, 1] [2, 2] rfl
  exact ⟨h.1, h.2.1⟩

/-- A modelled optimizer run that fails on peak 0 but would succeed on
peak 1. -/
def badFit : ℕ → Except FitError (ℕ × ℕ) :=
  fun k => if k = 0 then Except.error FitError.noConvergence else Except.ok (k, k)

/-- Counterexample to C4 as stated: with an optimizer failing on peak 0 of 2,
the loop's whole result is the bare error — no per-peak fit-failure state is
recorded and peak 1 is never fitted, even though its own fit succeeds. -/
theorem fitLoop_failure_not_local :
    fitLoop badFit 2 = Except.error FitError.noConvergence ∧
    badFit 1 = Except.ok (1, 1) :=
  ⟨rfl, rfl⟩

/-- C4 (amended): the per-peak loop body has no error handling, so the first
optimizer failure propagates out of the whole loop: if the fits before peak k
succeed and peak k's fit fails, `runCurveFits` returns that failure and no
result list — the remaining peaks are not fitted. -/
theorem runCurveFits_failure_propagates {α β : Type}
    (curve_fit : FitArgs → Except FitError (α × β))
    (nmr_ppm nmr_intensity : List ℝ) (peak_info : PeakInfo)
    (numPeaks k : ℕ) (e : FitError) (hk : k < numPeaks)
    (hpre : ∀ j, j < k → ∃ r,
      curve_fit (curveFitArgs nmr_ppm nmr_intensity peak_info j) = Except.ok r)
    (hfail : curve_fit (curveFitArgs nmr_ppm nmr_intensity peak_info k) =
      Except.error e) :
    runCurveFits curve_fit nmr_ppm nmr_intensity peak_info numPeaks =
      Except.error e :=
  fitLoop_error_propagates _ numPeaks k e hk hpre hfail

/-- Witness for the amended C4: an optimizer that always fails makes the
one-peak loop return the error. -/
theorem runCurveFits_failure_propagates_witness :
    runCurveFits
      (fun _ => (Except.error FitError.noConvergence : Except FitError (ℕ × ℕ)))
      [] [] ⟨[], [], []⟩ 1 = Except.error FitError.noConvergence :=
  runCurveFits_failure_propagates _ [] [] ⟨[], [], []⟩ 1 0
    FitError.noConvergence (by omega) (fun j hj => absurd hj (by omega)) rfl

/-- C8: iteration pk of the loop hands the optimizer the initial parameter
vector p0 = [amplitude, centre, width] where the amplitude estimate is the
candidate's height times its width (rectangle approximation), and the model
being fitted is the Lorentzian. -/
theorem curveFitArgs_p0 (nmr_ppm nmr_intensity : List ℝ)
    (peak_info : PeakInfo) (pk : ℕ)
    (h1 : pk < peak_info.peak_heights.length)
    (h2 : pk < peak_info.widths.length)
    (h3 : pk < peak_info.centres.length) :
    (curveFitArgs nmr_ppm nmr_intensity peak_info pk).p0 =
      [peak_info.peak_heights.get ⟨pk, h1⟩ * peak_info.widths.get ⟨pk, h2⟩,
       peak_info.centres.get ⟨pk, h3⟩,
       peak_info.widths.get ⟨pk, h2⟩] ∧
    (curveFitArgs nmr_ppm nmr_intensity peak_info pk).model = lorentzian := by
  refine ⟨?_, rfl⟩
  simp [curveFitArgs, List.getD_eq_getElem?_getD, List.getElem?_eq_getElem,
    h1, h2, h3, List.get_eq_getElem]

/-- Witness for C8 on a concrete one-candidate `peak_info`. -/
theorem curveFitArgs_p0_witness :
    (curveFitArgs [] [] ⟨[3], [2], [5]⟩ 0).p0 =
      [(([3] : List ℝ).get ⟨0, by norm_num⟩) * (([2] : List ℝ).get ⟨0, by norm_num⟩),
       ([5] : List ℝ).get ⟨0, by norm_num⟩,
       ([2] : List ℝ).get ⟨0, by norm_num⟩] ∧
    (curveFitArgs [] [] ⟨[3], [2], [5]⟩ 0).model = lorentzian :=
  curveFitArgs_p0 [] [] ⟨[3], [2], [5]⟩ 0 (by norm_num) (by norm_num) (by norm_num)

/-! ### Peak locator (scipy.signal.find_peaks wrapper) -/

/-- Modelled from the spec: the peak locator is `scipy.signal.find_peaks`,
whose implementation is not part of this repository.  Per the spec's locator
contract it "locates local maxima in the 1D array it is passed by comparing
data points with neighbouring values": index i is a candidate when it has
both neighbours and strictly exceeds them. -/
def isLocalMaxB (ys : List ℚ) (i : ℕ) : Bool :=
  decide (0 < i) && decide (i + 1 < ys.length) &&
  decide (ys.getD (i - 1) 0 < ys.getD i 0) &&
  decide (ys.getD (i + 1) 0 < ys.getD i 0)

/-- Modelled from the spec: `find_peaks` with an optional minimum-height
threshold returns the indices of the local maxima, keeping only those whose
height reaches the threshold when one is given. -/
def find_peaks (ys : List ℚ) (height : Option ℚ) : List ℕ :=
  (List.range ys.length).filter fun i =>
    isLocalMaxB ys i &&
      (match height with
       | none => true
       | some h => decide (h ≤ ys.getD i 0))

/-- A synthetic two-peak spectrum with noise: genuine peaks of height 10 at
indices 5 and 15, noise-level local maxima of height 1 elsewhere. -/
def noisyTwoPeak : List ℚ :=
  [0, 1, 0, 1, 0, 10, 0, 1, 0, 1, 0, 1, 0, 1, 0, 10, 0, 1, 0, 1, 0]

/-- C6: with no thresholds the locator returns every local maximum — on the
noisy two-peak spectrum that is 10 candidates, far more than the 2 genuine
peaks — while a height threshold above the noise floor (here 5) returns
exactly the 2 genuine peaks, at indices 5 and 15. -/
theorem find_peaks_threshold_policy :
    (∀ (ys : List ℚ) (i : ℕ), isLocalMaxB ys i = true →
      i ∈ find_peaks ys none) ∧
    (find_peaks noisyTwoPeak none).length = 10 ∧
    2 < (find_peaks noisyTwoPeak none).length ∧
    find_peaks noisyTwoPeak (some 5) = [5, 15] := by
  refine ⟨?_, by decide, by decide, by decide⟩
  intro ys i hmax
  have hlen : i < ys.length := by
    have h2 : i + 1 < ys.length := by
      have := hmax
      unfold isLocalMaxB at this
      simp only [Bool.and_eq_true, decide_eq_true_eq] at this
      exact this.1.1.2
    omega
  unfold find_peaks
  rw [List.mem_filter]
  refine ⟨List.mem_range.mpr hlen, ?_⟩
  simp [hmax]

/-- Witness for C6's universal part: index 1 of [0, 5, 0] is a local maximum
and the threshold-free locator reports it. -/
theorem find_peaks_threshold_policy_witness :
    1 ∈ find_peaks [0, 5, 0] none :=
  find_peaks_threshold_policy.1 [0, 5, 0] 1 (by decide)

/-! ### getMolDescriptors (ML_demo.ipynb)

Python source:
```
def getMolDescriptors(mol, descriptor_list=None, missingVal=None):
    res = {}
    if not(descriptor_list):
        descriptors = Descriptors._descList
    else:
        descriptors = [Descriptors._descList[idx] for idx in descriptor_list]
    for nm,fn in descriptors:
        try:
            val = fn(mol)
        except:
            (print the traceback)
            val = missingVal
        res[nm] = val
    return res
```
`Descriptors._descList` is external rdkit data, passed as a parameter: a list
of (name, fallible function) pairs.  A fallible descriptor function becomes
`Mol → Except Unit Val`; `missingVal` (default `None`) becomes
`Option Val` with success wrapping in `some`.  Python's `not(descriptor_list)`
is true for both `None` and the empty list.  The `try`/`except` wraps only
`fn(mol)`: an out-of-range index in the selection comprehension raises an
uncaught `IndexError`, which the embedding propagates through `Except`.  The
result `res` is a dict built by `res[nm] = val`, so a repeated name keeps only
the last assignment: the dict is modelled as a partial map built by
overwriting assignment. -/

inductive PyErr where
  | indexError
deriving DecidableEq

def selectDescriptors {Mol Val : Type}
    (descList : List (String × (Mol → Except Unit Val)))
    (descriptor_list : Option (List ℕ)) :
    Except PyErr (List (String × (Mol → Except Unit Val))) :=
  match descriptor_list with
  | none => Except.ok descList
  | some [] => Except.ok descList
  | some idxs =>
    idxs.mapM fun idx =>
      match descList.get? idx with
      | some d => Except.ok d
      | none => Except.error PyErr.indexError

/-- The `for nm,fn in descriptors` loop: try the descriptor function, fall
back to `missingVal` on failure, assign `res[nm] = val` (overwriting any
earlier entry under the same name). -/
def runDescriptors {Mol Val : Type} (mol : Mol) (missingVal : Option Val)
    (descriptors : List (String × (Mol → Except Unit Val))) :
    String → Option (Option Val) :=
  descriptors.foldl
    (fun res d =>
      let val : Option Val :=
        match d.2 mol with
        | Except.ok v => some v
        | Except.error _ => missingVal
      fun s => if s = d.1 then some val else res s)
    (fun _ => none)

def getMolDescriptors {Mol Val : Type}
    (descList : List (String × (Mol → Except Unit Val)))
    (mol : Mol) (descriptor_list : Option (List ℕ)) (missingVal : Option Val) :
    Except PyErr (String → Option (Option Val)) :=
  match selectDescriptors descList descriptor_list with
  | Except.error e => Except.error e
  | Except.ok descriptors => Except.ok (runDescriptors mol missingVal descriptors)

theorem runDescriptors_append {Mol Val : Type} (mol : Mol)
    (missingVal : Option Val) (l : List (String × (Mol → Except Unit Val)))
    (p : String × (Mol → Except Unit Val)) :
    runDescriptors mol missingVal (l ++ [p]) = fun s =>
      if s = p.1 then
        some (match p.2 mol with
              | Except.ok v => some v
              | Except.error _ => missingVal)
      else runDescriptors mol missingVal l s := by
  unfold runDescriptors
  rw [List.foldl_append]
  rfl

theorem runDescriptors_mem {Mol Val : Type} (mol : Mol)
    (missingVal : Option Val) :
    ∀ (descriptors : List (String × (Mol → Except Unit Val))),
      ∀ d ∈ descriptors, ∃ v,
        runDescriptors mol missingVal descriptors d.1 = some v := by
  intro descriptors
  induction descriptors using List.reverseRecOn with
  | nil => intro d hd; cases hd
  | append_singleton l p ih =>
    intro d hd
    rw [runDescriptors_append]
    simp only []
    by_cases hs : d.1 = p.1
    · rw [if_pos hs]; exact ⟨_, rfl⟩
    · rw [if_neg hs]
      rcases List.mem_append.mp hd with h | h
      · exact ih d h
      · rw [List.mem_singleton] at h
        subst h
        exact absurd rfl hs

theorem runDescriptors_nodup {Mol Val : Type} (mol : Mol)
    (missingVal : Option Val) :
    ∀ (descriptors : List (String × (Mol → Except Unit Val))),
      (descriptors.map Prod.fst).Nodup →
      ∀ d ∈ descriptors,
        runDescriptors mol missingVal descriptors d.1 =
          some (match d.2 mol with
                | Except.ok v => some v
                | Except.error _ => missingVal) := by
  intro descriptors
  induction descriptors using List.reverseRecOn with
  | nil => intro _ d hd; cases hd
  | append_singleton l p ih =>
    intro hnd d hd
    rw [List.map_append, List.nodup_append] at hnd
    obtain ⟨hl, -, hdisj⟩ := hnd
    rw [runDescriptors_append]
    simp only []
    rcases List.mem_append.mp hd with h | h
    · have hne : d.1 ≠ p.1 := by
        intro he
        exact hdisj (List.mem_map_of_mem Prod.fst h)
          (by rw [he, List.map_singleton]; exact List.mem_singleton_self p.1)
      rw [if_neg hne]
      exact ih hl d h
    · rw [List.mem_singleton] at h
      subst h
      rw [if_pos rfl]

/-- C9: `getMolDescriptors` is total over descriptor failures: whenever the
descriptor selection itself succeeds (the source's only uncaught error here is
the `IndexError` from an out-of-range index in `descriptor_list`), the call
returns a dictionary — no descriptor-function exception propagates — that has
an entry for every selected descriptor name; and when the selected names are
distinct (dict assignment keeps only the last value of a repeated name), each
name is mapped to the computed value, or to `missingVal` when its descriptor
function raises. -/
theorem getMolDescriptors_total {Mol Val : Type}
    (descList : List (String × (Mol → Except Unit Val))) (mol : Mol)
    (descriptor_list : Option (List ℕ)) (missingVal : Option Val)
    (descriptors : List (String × (Mol → Except Unit Val)))
    (hsel : selectDescriptors descList descriptor_list =
      Except.ok descriptors) :
    getMolDescriptors descList mol descriptor_list missingVal =
      Except.ok (runDescriptors mol missingVal descriptors) ∧
    (∀ d ∈ descriptors, ∃ v,
      runDescriptors mol missingVal descriptors d.1 = some v) ∧
    ((descriptors.map Prod.fst).Nodup →
      ∀ d ∈ descriptors,
        runDescriptors mol missingVal descriptors d.1 =
          some (match d.2 mol with
                | Except.ok v => some v
                | Except.error _ => missingVal)) := by
  refine ⟨?_, runDescriptors_mem mol missingVal descriptors,
    runDescriptors_nodup mol missingVal descriptors⟩
  unfold getMolDescriptors
  rw [hsel]

/-- Witness for C9: a two-descriptor table selected by indices [0, 1], where
descriptor "b" raises: the selection succeeds, the call returns a dictionary,
every selected name has an entry, and "b" is mapped to the default missing
value `none`. -/
theorem getMolDescriptors_total_witness :
    getMolDescriptors
        [("a", fun _ => Except.ok 7), ("b", fun _ => Except.error ())]
        (0 : ℕ) (some [0, 1]) (none : Option ℕ) =
      Except.ok (runDescriptors 0 none
        [("a", fun _ => Except.ok 7), ("b", fun _ => Except.error ())]) ∧
    runDescriptors 0 none
      [(("a" : String), fun (_ : ℕ) => Except.ok (7 : ℕ)),
       ("b", fun _ => Except.error ())] "b" = some none := by
  have h := getMolDescriptors_total
    [("a", fun _ => Except.ok 7), ("b", fun _ => Except.error ())]
    (0 : ℕ) (some [0, 1]) (none : Option ℕ)
    [("a", fun _ => Except.ok 7), ("b", fun _ => Except.error ())] rfl
  refine ⟨h.1, ?_⟩
  have h2 := h.2.2 (by simp) ("b", fun _ => Except.error ()) (by simp)
  exact h2

/-! ### get_smiles_from_name (ML_demo.ipynb)

Python source:
```
def get_smiles_from_name(name):
    ROOT_URL = "https://cactus.nci.nih.gov/chemical/structure/"
    identifier = name
    representation = "smiles"
    query_url = f"{ROOT_URL}{identifier}/{representation}"
    response = requests.get(query_url)
    time.sleep(0.05)
    if response:
        return response.text
    else:
        print(f"Failed to get SMILES for {name}")
        return "not found"
```
`requests.get` is the external network black box, modelled as a pure function
from URL to response plus one tick of a request counter; a `Response`'s
truthiness (`if response:`) is its HTTP-success flag.  `time.sleep` and the
diagnostic `print` have no effect on the returned value or the request count
and are omitted. -/

structure Response where
  ok : Bool
  text : String

def requestsGet (net : String → Response) (url : String) : StateM ℕ Response :=
  fun count => (net url, count + 1)

def get_smiles_from_name (net : String → Response) (name : String) :
    StateM ℕ String := do
  let ROOT_URL := "https://cactus.nci.nih.gov/chemical/structure/"
  let identifier := name
  let query_url := ROOT_URL ++ identifier ++ "/" ++ "smiles"
  let response ← requestsGet net query_url
  if response.ok then
    pure response.text
  else
    pure "not found"

/-- C10: `get_smiles_from_name` issues exactly one request per call and never
raises on a failed lookup: it returns the response body on a truthy response
and the sentinel "not found" otherwise. -/
theorem get_smiles_from_name_total (net : String → Response) (name : String)
    (count : ℕ) :
    (get_smiles_from_name net name).run count =
      (let r := net ("https://cactus.nci.nih.gov/chemical/structure/" ++
        name ++ "/" ++ "smiles")
       ((if r.ok then r.text else "not found"), count + 1)) := by
  simp only [get_smiles_from_name, requestsGet, StateT.run, bind, StateT.bind, pure,
    StateT.pure]
  cases h : (net ("https://cactus.nci.nih.gov/chemical/structure/" ++
      name ++ "/" ++ "smiles")).ok <;> simp [h, StateT.pure, Id]

end C3dBook
